import Mathlib

/-
Verification of the prologix-rs library (src/lib.rs): a UDP discovery and
reboot client for Prologix GPIB-ETHERNET controllers.  The wire-protocol
codec and the discovery collection loop are embedded shallowly: byte
buffers are lists of naturals (each entry a byte value), machine-integer
arithmetic is explicit modular arithmetic on Nat, fallible parsing returns
Except, and the effectful discovery loop is modelled as a fold over the
stream of receive events (a timeout or swallowed receive error is a none
event, a received datagram is a some event).
-/

/-- Decidable equality for Except values, so that concrete parses can be
checked by evaluation. -/
def except_dec_eq {ε α : Type} [DecidableEq ε] [DecidableEq α] :
    (a b : Except ε α) → Decidable (a = b)
  | .error e1, .error e2 =>
    if h : e1 = e2 then isTrue (by subst h; rfl) else isFalse (by simp [h])
  | .error _, .ok _ => isFalse (by simp)
  | .ok _, .error _ => isFalse (by simp)
  | .ok a1, .ok a2 =>
    if h : a1 = a2 then isTrue (by subst h; rfl) else isFalse (by simp [h])

instance {ε α : Type} [DecidableEq ε] [DecidableEq α] : DecidableEq (Except ε α) :=
  except_dec_eq

namespace Prologix

def PROLOGIX_MAGIC : Nat := 0x5A

def IDENTIFY_CMD : Nat := 0x00

def REBOOT_CMD : Nat := 0x12

/-- Error enum of the library: Io wraps a socket error, NotFound reports an
empty discovery, ParseError carries a message string. -/
inductive Error where
  | Io : Error
  | NotFound : Error
  | ParseError : String → Error
deriving DecidableEq, Repr

/-- MacAddress: six raw bytes. -/
structure MacAddress where
  addr : List Nat
deriving DecidableEq, Repr

/-- Default MacAddress: the broadcast sentinel FF:FF:FF:FF:FF:FF. -/
def MacAddress.default : MacAddress :=
  { addr := [0xFF, 0xFF, 0xFF, 0xFF, 0xFF, 0xFF] }

/-- Big-endian byte pair of a u16 value (u16::to_be_bytes); the explicit
mod keeps the embedding total on Nat. -/
def u16_be_bytes (seq : Nat) : List Nat :=
  [seq / 2 ^ 8 % 2 ^ 8, seq % 2 ^ 8]

structure MsgHeader where
  magic : Nat
  id : Nat
  seq : Nat
  mac_addr : MacAddress
deriving DecidableEq, Repr

def MsgHeader.new (magic id seq : Nat) (mac_addr : MacAddress) : MsgHeader :=
  { magic := magic, id := id, seq := seq, mac_addr := mac_addr }

/-- MsgHeader::to_bytes: [magic, id] ++ seq big-endian ++ mac bytes ++ [0, 0]. -/
def MsgHeader.to_bytes (h : MsgHeader) : List Nat :=
  [h.magic, h.id] ++ u16_be_bytes h.seq ++ h.mac_addr.addr ++ [0x00, 0x00]

/-- MsgHeader::from_bytes: reads magic at 0, id at 1, big-endian seq at
[2,4), mac at [4,10); performs no validation. -/
def MsgHeader.from_bytes (bytes : List Nat) : MsgHeader :=
  { magic := bytes.getD 0 0
    id := bytes.getD 1 0
    seq := bytes.getD 2 0 * 2 ^ 8 + bytes.getD 3 0
    mac_addr :=
      { addr := [bytes.getD 4 0, bytes.getD 5 0, bytes.getD 6 0,
                 bytes.getD 7 0, bytes.getD 8 0, bytes.getD 9 0] } }

inductive ControllerMode where
  | BootLoader
  | Application
deriving DecidableEq, Repr

/-- From u8 for ControllerMode: 0 is BootLoader, everything else Application. -/
def ControllerMode.from_u8 (value : Nat) : ControllerMode :=
  match value with
  | 0 => .BootLoader
  | _ => .Application

inductive ControllerAlert where
  | Ok
  | Warning
  | Error
deriving DecidableEq, Repr

/-- From u8 for ControllerAlert: 0 is Ok, 1 is Warning, everything else Error. -/
def ControllerAlert.from_u8 (value : Nat) : ControllerAlert :=
  match value with
  | 0 => .Ok
  | 1 => .Warning
  | _ => .Error

inductive ControllerIpType where
  | Dynamic
  | Static
deriving DecidableEq, Repr

/-- From u8 for ControllerIpType: 0 is Dynamic, everything else Static. -/
def ControllerIpType.from_u8 (value : Nat) : ControllerIpType :=
  match value with
  | 0 => .Dynamic
  | _ => .Static

structure ControllerVersion where
  major : Nat
  minor : Nat
  patch : Nat
  bugfix : Nat
deriving DecidableEq, Repr

def ControllerVersion.new (major minor patch bugfix : Nat) : ControllerVersion :=
  { major := major, minor := minor, patch := patch, bugfix := bugfix }

/-- std::net::IpAddr restricted to the V4 constructor actually used. -/
inductive IpAddr where
  | V4 : Nat → Nat → Nat → Nat → IpAddr
deriving DecidableEq, Repr

structure ControllerInfo where
  mac_addr : MacAddress
  uptime : Nat
  mode : ControllerMode
  alert : ControllerAlert
  ip_type : ControllerIpType
  ip_addr : IpAddr
  ip_netmask : IpAddr
  ip_gateway : IpAddr
  app_version : ControllerVersion
  boot_version : ControllerVersion
  hardware_version : ControllerVersion
deriving DecidableEq, Repr

/-- ControllerInfo::from_bytes.  The uptime Duration is represented by its
whole-second count; the u64 arithmetic cannot overflow for byte inputs
(max 65535*86400 + 255*3600 + 255*60 + 255), so plain Nat arithmetic is
the faithful embedding. -/
def ControllerInfo.from_bytes (msg : List Nat) : Except Error ControllerInfo :=
  if msg.length < 76 then
    .error (.ParseError "Failed to parse ControllerInfo")
  else if (MsgHeader.from_bytes (msg.take 12)).magic ≠ PROLOGIX_MAGIC then
    .error (.ParseError "Incorrect magic number at start of message")
  else
    .ok
      { mac_addr := (MsgHeader.from_bytes (msg.take 12)).mac_addr
        uptime := (msg.getD 12 0 * 2 ^ 8 + msg.getD 13 0) * 24 * 3600 +
          msg.getD 14 0 * 3600 + msg.getD 15 0 * 60 + msg.getD 16 0
        mode := ControllerMode.from_u8 (msg.getD 17 0)
        alert := ControllerAlert.from_u8 (msg.getD 18 0)
        ip_type := ControllerIpType.from_u8 (msg.getD 19 0)
        ip_addr := .V4 (msg.getD 20 0) (msg.getD 21 0) (msg.getD 22 0) (msg.getD 23 0)
        ip_netmask := .V4 (msg.getD 24 0) (msg.getD 25 0) (msg.getD 26 0) (msg.getD 27 0)
        ip_gateway := .V4 (msg.getD 28 0) (msg.getD 29 0) (msg.getD 30 0) (msg.getD 31 0)
        app_version := ControllerVersion.new (msg.getD 32 0) (msg.getD 33 0)
          (msg.getD 34 0) (msg.getD 35 0)
        boot_version := ControllerVersion.new (msg.getD 36 0) (msg.getD 37 0)
          (msg.getD 38 0) (msg.getD 39 0)
        hardware_version := ControllerVersion.new (msg.getD 40 0) (msg.getD 41 0)
          (msg.getD 42 0) (msg.getD 43 0) }

/-- build_discovery: identify request with a random u16 sequence.  The
random draw is modelled by the parameter seqR, reduced mod 2^16 exactly as
gen produces a u16. -/
def build_discovery (seqR : Nat) : List Nat :=
  (MsgHeader.new PROLOGIX_MAGIC IDENTIFY_CMD (seqR % 2 ^ 16) MacAddress.default).to_bytes

inductive RebootType where
  | Bootloader
  | Reset
deriving DecidableEq, Repr

def RebootType.to_u8 (rt : RebootType) : Nat :=
  match rt with
  | .Bootloader => 0
  | .Reset => 1

/-- build_reboot: reboot request header followed by [reboot code, 0, 0, 0]. -/
def build_reboot (reboot_type : RebootType) (seqR : Nat) : List Nat :=
  (MsgHeader.new PROLOGIX_MAGIC REBOOT_CMD (seqR % 2 ^ 16) MacAddress.default).to_bytes ++
    [reboot_type.to_u8, 0, 0, 0]

/-- The single datagram the public reboot function sends: the source calls
build_reboot(&RebootType::Reset) unconditionally — reboot takes only the
target address, no RebootType parameter. -/
def reboot_datagram (seqR : Nat) : List Nat :=
  build_reboot RebootType.Reset seqR

/-- The receive buffer of discover after recv_from of a datagram: the
buffer is allocated as 76 zero bytes and recv_from overwrites its first
min(len, 76) bytes with the datagram, truncating longer datagrams. -/
def recv_buf (datagram : List Nat) : List Nat :=
  datagram.take 76 ++ List.replicate (76 - datagram.length) 0

/-- The byte count recv_from reports for a datagram: the number of bytes
copied into the 76-byte buffer. -/
def recv_len (datagram : List Nat) : Nat :=
  min datagram.length 76

/-- HashMap::insert modelled on an association list: overwrite the entry
with the given key in place, or append a fresh entry. -/
def insert_addr : List (IpAddr × ControllerInfo) → IpAddr → ControllerInfo →
    List (IpAddr × ControllerInfo)
  | [], k, v => [(k, v)]
  | (k0, v0) :: rest, k, v =>
    if k0 = k then (k, v) :: rest else (k0, v0) :: insert_addr rest k v

/-- HashMap lookup on the association-list model. -/
def lookup_addr : List (IpAddr × ControllerInfo) → IpAddr → Option ControllerInfo
  | [], _ => none
  | (k0, v0) :: rest, k => if k0 = k then some v0 else lookup_addr rest k

/-- One iteration of the discover receive loop.  A none event is an
expired per-attempt timeout or a swallowed receive error (the loop keeps
going); a some event is a received datagram.  A datagram whose reported
length is at least 24 is parsed from the full 76-byte buffer, a parse
failure propagates, anything shorter is discarded. -/
def discover_step (addresses : List (IpAddr × ControllerInfo)) :
    Option (List Nat) → Except Error (List (IpAddr × ControllerInfo))
  | none => .ok addresses
  | some datagram =>
    if 24 ≤ recv_len datagram then
      match ControllerInfo.from_bytes (recv_buf datagram) with
      | .error e => .error e
      | .ok controller => .ok (insert_addr addresses controller.ip_addr controller)
    else
      .ok addresses

/-- The discover receive loop over a finite event stream (the events that
happen before the deadline), threading the address map and propagating
the first parse failure. -/
def discover_loop (addresses : List (IpAddr × ControllerInfo)) :
    List (Option (List Nat)) → Except Error (List (IpAddr × ControllerInfo))
  | [] => .ok addresses
  | e :: rest =>
    match discover_step addresses e with
    | .error err => .error err
    | .ok m => discover_loop m rest

/-- What discover does once the deadline has passed: NotFound on an empty
map, otherwise the collected values. -/
def discover_finish (addresses : List (IpAddr × ControllerInfo)) :
    Except Error (List ControllerInfo) :=
  if addresses.isEmpty then .error .NotFound
  else .ok (addresses.map Prod.snd)

/-- The whole discover call after a successful bind, broadcast-enable and
send, as a function of the receive events observed before the deadline. -/
def discover_run (events : List (Option (List Nat))) : Except Error (List ControllerInfo) :=
  match discover_loop [] events with
  | .error e => .error e
  | .ok addresses => discover_finish addresses

/-- An event whose datagram is accepted into the result map: reported
length at least 24 and a successful ControllerInfo parse of the buffer. -/
def accepted (e : Option (List Nat)) : Bool :=
  match e with
  | none => false
  | some d =>
    if 24 ≤ recv_len d then (ControllerInfo.from_bytes (recv_buf d)).isOk else false

/-- The ControllerInfo an event contributes to the map, when any. -/
def decode_of (e : Option (List Nat)) : Option ControllerInfo :=
  match e with
  | none => none
  | some d =>
    if 24 ≤ recv_len d then (ControllerInfo.from_bytes (recv_buf d)).toOption else none

/-- Accumulator step recording the latest decoded reply for address a. -/
def note_decode (a : IpAddr) (acc : Option ControllerInfo) (e : Option (List Nat)) :
    Option ControllerInfo :=
  match decode_of e with
  | some info => if info.ip_addr = a then some info else acc
  | none => acc

/-- The last successfully decoded reply carrying address a in the event
stream, if any. -/
def last_decode_for (a : IpAddr) (events : List (Option (List Nat))) :
    Option ControllerInfo :=
  events.foldl (note_decode a) none

/-- A well-formed 76-byte identify reply with uptime fields days=1,
hours=2, minutes=3, seconds=4 and every other payload byte zero. -/
def sample_reply : List Nat :=
  0x5A :: (List.replicate 11 0 ++ [0, 1, 2, 3, 4] ++ List.replicate 59 0)

/-- The ControllerInfo encoded by sample_reply. -/
def sample_info : ControllerInfo :=
  { mac_addr := { addr := [0, 0, 0, 0, 0, 0] }
    uptime := 93784
    mode := .BootLoader
    alert := .Ok
    ip_type := .Dynamic
    ip_addr := .V4 0 0 0 0
    ip_netmask := .V4 0 0 0 0
    ip_gateway := .V4 0 0 0 0
    app_version := ControllerVersion.new 0 0 0 0
    boot_version := ControllerVersion.new 0 0 0 0
    hardware_version := ControllerVersion.new 0 0 0 0 }

/-- sample_reply with a different hours byte (3 instead of 2): same IPv4
address, different decoded uptime. -/
def sample_replyB : List Nat :=
  0x5A :: (List.replicate 11 0 ++ [0, 1, 3, 3, 4] ++ List.replicate 59 0)

/-- The ControllerInfo encoded by sample_replyB. -/
def sample_infoB : ControllerInfo :=
  { sample_info with uptime := 97384 }

/-- sample_reply with the 32 device-name bytes at offsets [44,76)
replaced by 0xAA. -/
def sample_replyC : List Nat :=
  sample_reply.take 44 ++ List.replicate 32 0xAA

theorem getD_take (l : List Nat) (n i : Nat) (h : i < n) :
    (l.take n).getD i 0 = l.getD i 0 := by
  induction l generalizing n i with
  | nil => simp
  | cons a l ih =>
    cases n with
    | zero => omega
    | succ n =>
      cases i with
      | zero => simp
      | succ i => simpa using ih n i (by omega)

theorem recv_buf_length (d : List Nat) : (recv_buf d).length = 76 := by
  simp [recv_buf]
  omega

theorem recv_buf_getD (d : List Nat) (i : Nat) (h1 : i < d.length) (h2 : i < 76) :
    (recv_buf d).getD i 0 = d.getD i 0 := by
  unfold recv_buf
  rw [List.getD_append _ _ _ _ (by simp; omega), getD_take d 76 i h2]

theorem from_bytes_magic (msg : List Nat) :
    (MsgHeader.from_bytes (msg.take 12)).magic = msg.getD 0 0 := by
  simp [MsgHeader.from_bytes, getD_take msg 12 0 (by omega)]

theorem from_bytes_error_short (msg : List Nat) (h : msg.length < 76) :
    ControllerInfo.from_bytes msg = .error (.ParseError "Failed to parse ControllerInfo") := by
  simp [ControllerInfo.from_bytes, h]

theorem from_bytes_error_magic (msg : List Nat) (h76 : 76 ≤ msg.length)
    (hm : msg.getD 0 0 ≠ PROLOGIX_MAGIC) :
    ControllerInfo.from_bytes msg =
      .error (.ParseError "Incorrect magic number at start of message") := by
  rw [ControllerInfo.from_bytes, if_neg (by omega), if_pos (by rw [from_bytes_magic]; exact hm)]

theorem from_bytes_ok (msg : List Nat) (h76 : 76 ≤ msg.length)
    (hm : msg.getD 0 0 = PROLOGIX_MAGIC) :
    ControllerInfo.from_bytes msg = .ok
      { mac_addr := (MsgHeader.from_bytes (msg.take 12)).mac_addr
        uptime := (msg.getD 12 0 * 2 ^ 8 + msg.getD 13 0) * 24 * 3600 +
          msg.getD 14 0 * 3600 + msg.getD 15 0 * 60 + msg.getD 16 0
        mode := ControllerMode.from_u8 (msg.getD 17 0)
        alert := ControllerAlert.from_u8 (msg.getD 18 0)
        ip_type := ControllerIpType.from_u8 (msg.getD 19 0)
        ip_addr := .V4 (msg.getD 20 0) (msg.getD 21 0) (msg.getD 22 0) (msg.getD 23 0)
        ip_netmask := .V4 (msg.getD 24 0) (msg.getD 25 0) (msg.getD 26 0) (msg.getD 27 0)
        ip_gateway := .V4 (msg.getD 28 0) (msg.getD 29 0) (msg.getD 30 0) (msg.getD 31 0)
        app_version := ControllerVersion.new (msg.getD 32 0) (msg.getD 33 0)
          (msg.getD 34 0) (msg.getD 35 0)
        boot_version := ControllerVersion.new (msg.getD 36 0) (msg.getD 37 0)
          (msg.getD 38 0) (msg.getD 39 0)
        hardware_version := ControllerVersion.new (msg.getD 40 0) (msg.getD 41 0)
          (msg.getD 42 0) (msg.getD 43 0) } := by
  rw [ControllerInfo.from_bytes, if_neg (by omega),
    if_neg (by rw [from_bytes_magic]; exact fun hc => hc hm)]

theorem lookup_insert_self (m : List (IpAddr × ControllerInfo)) (k : IpAddr)
    (v : ControllerInfo) : lookup_addr (insert_addr m k v) k = some v := by
  induction m with
  | nil => simp [insert_addr, lookup_addr]
  | cons p rest ih =>
    obtain ⟨k0, v0⟩ := p
    by_cases h : k0 = k
    · simp [insert_addr, h, lookup_addr]
    · simp [insert_addr, h, lookup_addr, ih]

theorem lookup_insert_other (m : List (IpAddr × ControllerInfo)) (k : IpAddr)
    (v : ControllerInfo) (a : IpAddr) (h : a ≠ k) :
    lookup_addr (insert_addr m k v) a = lookup_addr m a := by
  induction m with
  | nil => simp [insert_addr, lookup_addr, Ne.symm h]
  | cons p rest ih =>
    obtain ⟨k0, v0⟩ := p
    by_cases h0 : k0 = k
    · subst h0
      simp [insert_addr, lookup_addr, Ne.symm h]
    · by_cases ha : k0 = a <;>
        simp [insert_addr, h0, lookup_addr, ha, ih, h, Ne.symm h]

theorem insert_addr_ne_nil (m : List (IpAddr × ControllerInfo)) (k : IpAddr)
    (v : ControllerInfo) : insert_addr m k v ≠ [] := by
  cases m with
  | nil => simp [insert_addr]
  | cons p rest =>
    obtain ⟨k0, v0⟩ := p
    by_cases h : k0 = k <;> simp [insert_addr, h]

theorem mem_keys_insert (m : List (IpAddr × ControllerInfo)) (k : IpAddr)
    (v : ControllerInfo) (x : IpAddr) :
    x ∈ (insert_addr m k v).map Prod.fst ↔ x ∈ m.map Prod.fst ∨ x = k := by
  induction m with
  | nil => simp [insert_addr]
  | cons p rest ih =>
    obtain ⟨k0, v0⟩ := p
    by_cases h : k0 = k
    · subst h
      simp [insert_addr]
      tauto
    · simp [insert_addr, h, ih]
      tauto

theorem nodup_keys_insert (m : List (IpAddr × ControllerInfo)) (k : IpAddr)
    (v : ControllerInfo) (h : (m.map Prod.fst).Nodup) :
    ((insert_addr m k v).map Prod.fst).Nodup := by
  induction m with
  | nil => simp [insert_addr]
  | cons p rest ih =>
    obtain ⟨k0, v0⟩ := p
    rw [List.map_cons, List.nodup_cons] at h
    by_cases h0 : k0 = k
    · subst h0
      rw [show insert_addr ((k0, v0) :: rest) k0 v = (k0, v) :: rest from by
        simp [insert_addr]]
      rw [List.map_cons, List.nodup_cons]
      exact h
    · rw [show insert_addr ((k0, v0) :: rest) k v = (k0, v0) :: insert_addr rest k v from by
        simp [insert_addr, h0]]
      rw [List.map_cons, List.nodup_cons]
      refine ⟨?_, ih h.2⟩
      rw [mem_keys_insert]
      rintro (hmem | rfl)
      · exact h.1 hmem
      · exact h0 rfl

theorem discover_step_ok (m0 : List (IpAddr × ControllerInfo))
    (e : Option (List Nat)) (m1 : List (IpAddr × ControllerInfo))
    (h : discover_step m0 e = .ok m1) :
    (decode_of e = none ∧ m1 = m0) ∨
      ∃ info, decode_of e = some info ∧ m1 = insert_addr m0 info.ip_addr info := by
  cases e with
  | none =>
    simp [discover_step] at h
    exact Or.inl ⟨rfl, h.symm⟩
  | some d =>
    by_cases h24 : 24 ≤ recv_len d
    · rw [discover_step, if_pos h24] at h
      cases hfb : ControllerInfo.from_bytes (recv_buf d) with
      | error err => rw [hfb] at h; simp at h
      | ok info =>
        rw [hfb] at h
        simp at h
        exact Or.inr ⟨info, by simp [decode_of, h24, hfb, Except.toOption], h.symm⟩
    · rw [discover_step, if_neg h24] at h
      simp at h
      exact Or.inl ⟨by simp [decode_of, h24], h.symm⟩

theorem decode_of_none_iff (e : Option (List Nat)) :
    decode_of e = none ↔ accepted e = false := by
  cases e with
  | none => simp [decode_of, accepted]
  | some d =>
    by_cases h24 : 24 ≤ recv_len d
    · cases hfb : ControllerInfo.from_bytes (recv_buf d) <;>
        simp [decode_of, accepted, h24, hfb, Except.toOption, Except.isOk, Except.toBool]
    · simp [decode_of, accepted, h24]

theorem accepted_of_decode (e : Option (List Nat)) (info : ControllerInfo)
    (h : decode_of e = some info) : accepted e = true := by
  cases hb : accepted e with
  | true => rfl
  | false => rw [(decode_of_none_iff e).mpr hb] at h; cases h

theorem discover_loop_lookup (events : List (Option (List Nat))) :
    ∀ m0 m a, discover_loop m0 events = .ok m →
      lookup_addr m a = events.foldl (note_decode a) (lookup_addr m0 a) := by
  induction events with
  | nil =>
    intro m0 m a h
    simp [discover_loop] at h
    subst h
    rfl
  | cons e rest ih =>
    intro m0 m a h
    rw [discover_loop] at h
    cases hstep : discover_step m0 e with
    | error err => rw [hstep] at h; simp at h
    | ok m1 =>
      rw [hstep] at h
      simp only at h
      rw [List.foldl_cons, ih m1 m a h]
      congr 1
      rcases discover_step_ok m0 e m1 hstep with ⟨hd, rfl⟩ | ⟨info, hd, rfl⟩
      · simp [note_decode, hd]
      · rw [note_decode, hd]
        by_cases hip : info.ip_addr = a
        · subst hip
          simp [lookup_insert_self]
        · simp only [if_neg hip]
          exact lookup_insert_other m0 info.ip_addr info a (fun hc => hip hc.symm)

theorem discover_loop_empty_iff (events : List (Option (List Nat))) :
    ∀ m0 m, discover_loop m0 events = .ok m →
      (m = [] ↔ m0 = [] ∧ ∀ e ∈ events, accepted e = false) := by
  induction events with
  | nil =>
    intro m0 m h
    simp [discover_loop] at h
    subst h
    simp
  | cons e rest ih =>
    intro m0 m h
    rw [discover_loop] at h
    cases hstep : discover_step m0 e with
    | error err => rw [hstep] at h; simp at h
    | ok m1 =>
      rw [hstep] at h
      simp only at h
      rw [ih m1 m h]
      rcases discover_step_ok m0 e m1 hstep with ⟨hd, rfl⟩ | ⟨info, hd, rfl⟩
      · have hacc : accepted e = false := (decode_of_none_iff e).mp hd
        simp [hacc]
      · have hacc : accepted e = true := accepted_of_decode e info hd
        constructor
        · rintro ⟨hnil, _⟩
          exact absurd hnil (insert_addr_ne_nil _ _ _)
        · rintro ⟨hm0, hall⟩
          have := hall e (by simp)
          rw [hacc] at this
          cases this

theorem discover_loop_nodup (events : List (Option (List Nat))) :
    ∀ m0 m, (m0.map Prod.fst).Nodup → discover_loop m0 events = .ok m →
      (m.map Prod.fst).Nodup := by
  induction events with
  | nil =>
    intro m0 m h0 h
    simp [discover_loop] at h
    subst h
    exact h0
  | cons e rest ih =>
    intro m0 m h0 h
    rw [discover_loop] at h
    cases hstep : discover_step m0 e with
    | error err => rw [hstep] at h; simp at h
    | ok m1 =>
      rw [hstep] at h
      simp only at h
      rcases discover_step_ok m0 e m1 hstep with ⟨_, rfl⟩ | ⟨info, _, rfl⟩
      · exact ih _ m h0 h
      · exact ih _ m (nodup_keys_insert m0 info.ip_addr info h0) h

theorem discover_run_of_loop (events : List (Option (List Nat)))
    (m : List (IpAddr × ControllerInfo)) (h : discover_loop [] events = .ok m) :
    discover_run events = discover_finish m := by
  rw [discover_run, h]

/-- C3: ControllerInfo decoding errors exactly when the buffer is shorter
than 76 bytes or its first byte differs from 0x5A; every buffer meeting
both preconditions decodes successfully, and the embedding is a total
function of the buffer (reads are defaulted lookups), so the two checks
are the only failure causes and no access is out of bounds. -/
theorem from_bytes_ok_error_characterization (msg : List Nat) :
    ((∃ info, ControllerInfo.from_bytes msg = .ok info) ↔
      76 ≤ msg.length ∧ msg.getD 0 0 = PROLOGIX_MAGIC) ∧
    ((∃ s, ControllerInfo.from_bytes msg = .error (.ParseError s)) ↔
      msg.length < 76 ∨ msg.getD 0 0 ≠ PROLOGIX_MAGIC) := by
  by_cases h76 : msg.length < 76
  · rw [from_bytes_error_short msg h76]
    constructor
    · constructor
      · rintro ⟨info, hc⟩
        cases hc
      · rintro ⟨h1, -⟩
        omega
    · constructor
      · intro _
        exact Or.inl h76
      · intro _
        exact ⟨_, rfl⟩
  · by_cases hm : msg.getD 0 0 = PROLOGIX_MAGIC
    · rw [from_bytes_ok msg (by omega) hm]
      constructor
      · constructor
        · intro _
          exact ⟨by omega, hm⟩
        · intro _
          exact ⟨_, rfl⟩
      · constructor
        · rintro ⟨s, hc⟩
          cases hc
        · rintro (h1 | h2)
          · omega
          · exact absurd hm h2
    · rw [from_bytes_error_magic msg (by omega) hm]
      constructor
      · constructor
        · rintro ⟨info, hc⟩
          cases hc
        · rintro ⟨-, h2⟩
          exact absurd h2 hm
      · constructor
        · intro _
          exact Or.inr hm
        · intro _
          exact ⟨_, rfl⟩

/-- C6: for every buffer the decoder accepts, the decoded uptime in
seconds is days*86400 + hours*3600 + minutes*60 + seconds, with days the
big-endian u16 at offsets 12..13 and hours, minutes, seconds the bytes at
offsets 14, 15, 16. -/
theorem from_bytes_uptime_formula (msg : List Nat) (info : ControllerInfo)
    (h : ControllerInfo.from_bytes msg = .ok info) :
    info.uptime = (msg.getD 12 0 * 2 ^ 8 + msg.getD 13 0) * 86400 +
      msg.getD 14 0 * 3600 + msg.getD 15 0 * 60 + msg.getD 16 0 := by
  by_cases h76 : msg.length < 76
  · rw [from_bytes_error_short msg h76] at h
    cases h
  · by_cases hm : msg.getD 0 0 = PROLOGIX_MAGIC
    · rw [from_bytes_ok msg (by omega) hm] at h
      cases h
      show (msg.getD 12 0 * 2 ^ 8 + msg.getD 13 0) * 24 * 3600 +
          msg.getD 14 0 * 3600 + msg.getD 15 0 * 60 + msg.getD 16 0 = _
      ring
    · rw [from_bytes_error_magic msg (by omega) hm] at h
      cases h

/-- C6 witness: decoding the concrete 76-byte reply with days=1, hours=2,
minutes=3, seconds=4 succeeds and yields uptime 93784 seconds. -/
theorem from_bytes_uptime_formula_witness :
    ControllerInfo.from_bytes sample_reply = Except.ok sample_info ∧
      sample_info.uptime = 93784 := by
  have h : ControllerInfo.from_bytes sample_reply = Except.ok sample_info := by decide
  refine ⟨h, ?_⟩
  rw [from_bytes_uptime_formula sample_reply sample_info h]
  decide

/-- C7: the identify request is always exactly 12 bytes: 0x5A, 0x00, the
two sequence bytes, six 0xFF broadcast-sentinel MAC bytes, then 0x00,
0x00 — for every value of the random sequence draw. -/
theorem build_discovery_shape (seqR : Nat) :
    (build_discovery seqR).length = 12 ∧
    (build_discovery seqR).take 2 = [0x5A, 0x00] ∧
    ((build_discovery seqR).drop 4).take 6 = [0xFF, 0xFF, 0xFF, 0xFF, 0xFF, 0xFF] ∧
    (build_discovery seqR).drop 10 = [0x00, 0x00] := by
  refine ⟨?_, ?_, ?_, ?_⟩ <;>
    simp [build_discovery, MsgHeader.new, MsgHeader.to_bytes, u16_be_bytes,
      MacAddress.default, PROLOGIX_MAGIC, IDENTIFY_CMD]

/-- C8: for every RebootType and every random sequence draw, the reboot
request is exactly 16 bytes beginning 0x5A, 0x12 and ending with the four
bytes code, 0, 0, 0, where the code is 0 for Bootloader and 1 for Reset. -/
theorem build_reboot_shape (rt : RebootType) (seqR : Nat) :
    (build_reboot rt seqR).length = 16 ∧
    (build_reboot rt seqR).take 2 = [0x5A, 0x12] ∧
    (build_reboot rt seqR).drop 12 = [rt.to_u8, 0, 0, 0] ∧
    RebootType.to_u8 .Bootloader = 0 ∧ RebootType.to_u8 .Reset = 1 := by
  refine ⟨?_, ?_, ?_, rfl, rfl⟩ <;>
    simp [build_reboot, MsgHeader.new, MsgHeader.to_bytes, u16_be_bytes,
      MacAddress.default, PROLOGIX_MAGIC, REBOOT_CMD]

/-- C9: decoding the 12 bytes produced by encoding any header (any magic
byte, any command id, any 16-bit sequence, any 6-byte MAC) recovers the
header exactly in every field; the decoder is a total function and rejects
nothing, so no field is validated. -/
theorem msg_header_roundtrip (h : MsgHeader) (hseq : h.seq < 2 ^ 16)
    (hmac : h.mac_addr.addr.length = 6) :
    MsgHeader.from_bytes h.to_bytes = h := by
  obtain ⟨magic, cid, seq, mac⟩ := h
  obtain ⟨addr⟩ := mac
  rcases addr with _ | ⟨a, _ | ⟨b, _ | ⟨c, _ | ⟨d, _ | ⟨e, _ | ⟨f, _ | ⟨g, t⟩⟩⟩⟩⟩⟩⟩ <;>
    simp_all [MsgHeader.to_bytes, MsgHeader.from_bytes, u16_be_bytes,
      MsgHeader.mk.injEq, MacAddress.mk.injEq]
  omega

/-- C9 witness: the roundtrip at a concrete header with a non-sentinel
magic byte, a reboot command id, sequence 0xABCD and a concrete MAC. -/
theorem msg_header_roundtrip_witness :
    (⟨0x17, 0x12, 0xABCD, ⟨[1, 2, 3, 4, 5, 6]⟩⟩ : MsgHeader).seq < 2 ^ 16 ∧
    (⟨0x17, 0x12, 0xABCD, ⟨[1, 2, 3, 4, 5, 6]⟩⟩ : MsgHeader).mac_addr.addr.length = 6 ∧
    MsgHeader.from_bytes (⟨0x17, 0x12, 0xABCD, ⟨[1, 2, 3, 4, 5, 6]⟩⟩ : MsgHeader).to_bytes =
      (⟨0x17, 0x12, 0xABCD, ⟨[1, 2, 3, 4, 5, 6]⟩⟩ : MsgHeader) :=
  ⟨by decide, by decide, msg_header_roundtrip _ (by decide) (by decide)⟩

/-- C10: the decode outcome is a function of the length test and the first
44 bytes alone: two buffers of length at least 76 agreeing on offsets
[0,44) decode identically, so the 32 device-name bytes at [44,76) and any
bytes past offset 76 are never read, and the result record stores no field
taken from them. -/
theorem from_bytes_depends_on_first_44 (m1 m2 : List Nat)
    (h1 : 76 ≤ m1.length) (h2 : 76 ≤ m2.length) (hpre : m1.take 44 = m2.take 44) :
    ControllerInfo.from_bytes m1 = ControllerInfo.from_bytes m2 := by
  have hg : ∀ i, i < 44 → m1.getD i 0 = m2.getD i 0 := by
    intro i hi
    rw [← getD_take m1 44 i hi, hpre, getD_take m2 44 i hi]
  have h12 : m1.take 12 = m2.take 12 := by
    have hc := congrArg (List.take 12) hpre
    simpa [List.take_take] using hc
  by_cases hm : m1.getD 0 0 = PROLOGIX_MAGIC
  · rw [from_bytes_ok m1 h1 hm, from_bytes_ok m2 h2 (by rw [← hg 0 (by omega)]; exact hm)]
    rw [h12, hg 12 (by omega), hg 13 (by omega), hg 14 (by omega), hg 15 (by omega),
      hg 16 (by omega), hg 17 (by omega), hg 18 (by omega), hg 19 (by omega),
      hg 20 (by omega), hg 21 (by omega), hg 22 (by omega), hg 23 (by omega),
      hg 24 (by omega), hg 25 (by omega), hg 26 (by omega), hg 27 (by omega),
      hg 28 (by omega), hg 29 (by omega), hg 30 (by omega), hg 31 (by omega),
      hg 32 (by omega), hg 33 (by omega), hg 34 (by omega), hg 35 (by omega),
      hg 36 (by omega), hg 37 (by omega), hg 38 (by omega), hg 39 (by omega),
      hg 40 (by omega), hg 41 (by omega), hg 42 (by omega), hg 43 (by omega)]
  · rw [from_bytes_error_magic m1 h1 hm,
      from_bytes_error_magic m2 h2 (by rw [← hg 0 (by omega)]; exact hm)]

/-- C10 witness: the sample reply and the same reply with all 32
device-name bytes replaced by 0xAA decode to the same value. -/
theorem from_bytes_depends_on_first_44_witness :
    76 ≤ sample_reply.length ∧ 76 ≤ sample_replyC.length ∧
    sample_reply.take 44 = sample_replyC.take 44 ∧
    ControllerInfo.from_bytes sample_reply = ControllerInfo.from_bytes sample_replyC :=
  ⟨by decide, by decide, by decide,
    from_bytes_depends_on_first_44 sample_reply sample_replyC (by decide) (by decide)
      (by decide)⟩

/-- C1 counterexample: a 24-byte datagram whose first byte is the correct
magic 0x5A has length below 76, yet the discover iteration accepts it
instead of aborting: the decoder is applied to the zero-padded 76-byte
receive buffer, so the claimed too-short decode failure never occurs. -/
theorem discover_short_datagram_accepted :
    (discover_step [] (some (0x5A :: List.replicate 23 0))).isOk = true := by decide

/-- C1 (amended): for every received datagram of length at least 24, the
discover iteration fails exactly when the datagram's first byte differs
from 0x5A, and such a failure immediately aborts the whole receive loop
with the magic parse error; a datagram length between 24 and 75 is not by
itself a failure cause, because the decoder always sees the full 76-byte
receive buffer. -/
theorem discover_aborts_iff_bad_magic (m : List (IpAddr × ControllerInfo))
    (d : List Nat) (rest : List (Option (List Nat))) (h24 : 24 ≤ d.length) :
    ((∃ s, discover_step m (some d) = .error (.ParseError s)) ↔
      d.getD 0 0 ≠ PROLOGIX_MAGIC) ∧
    (d.getD 0 0 ≠ PROLOGIX_MAGIC →
      discover_loop m (some d :: rest) =
        .error (.ParseError "Incorrect magic number at start of message")) := by
  have hlen : 24 ≤ recv_len d := by unfold recv_len; omega
  have hbuf0 : (recv_buf d).getD 0 0 = d.getD 0 0 := recv_buf_getD d 0 (by omega) (by omega)
  have h76 : 76 ≤ (recv_buf d).length := by rw [recv_buf_length]
  constructor
  · constructor
    · rintro ⟨s, hs⟩
      intro hm
      rw [discover_step, if_pos hlen,
        from_bytes_ok (recv_buf d) h76 (by rw [hbuf0]; exact hm)] at hs
      simp at hs
    · intro hm
      rw [discover_step, if_pos hlen,
        from_bytes_error_magic (recv_buf d) h76 (by rw [hbuf0]; exact hm)]
      exact ⟨_, rfl⟩
  · intro hm
    rw [discover_loop, discover_step, if_pos hlen,
      from_bytes_error_magic (recv_buf d) h76 (by rw [hbuf0]; exact hm)]

/-- C1 witness: a 24-byte all-zero datagram has a wrong magic byte, so the
iteration reports a parse error and the loop aborts with it. -/
theorem discover_aborts_iff_bad_magic_witness :
    24 ≤ (List.replicate 24 0).length ∧
    (((∃ s, discover_step [] (some (List.replicate 24 0)) = .error (.ParseError s)) ↔
        (List.replicate 24 0).getD 0 0 ≠ PROLOGIX_MAGIC) ∧
      ((List.replicate 24 0).getD 0 0 ≠ PROLOGIX_MAGIC →
        discover_loop [] (some (List.replicate 24 0) :: []) =
          .error (.ParseError "Incorrect magic number at start of message"))) :=
  ⟨by decide, discover_aborts_iff_bad_magic [] (List.replicate 24 0) [] (by decide)⟩

/-- C2 counterexample: the datagram the public reboot operation sends (at
sequence draw 0) is not the reboot request built from
RebootType.Bootloader — reboot hardcodes RebootType.Reset and exposes no
rebootType parameter, so no choice of rebootType is honored. -/
theorem reboot_ignores_reboot_type :
    reboot_datagram 0 ≠ build_reboot RebootType.Bootloader 0 := by decide

/-- C2 (amended): the public reboot operation takes only the target
address; for every random sequence draw the single 16-byte datagram it
sends is the reboot request built from RebootType.Reset, ending with the
bytes 1, 0, 0, 0. -/
theorem reboot_sends_reset_request (seqR : Nat) :
    reboot_datagram seqR = build_reboot RebootType.Reset seqR ∧
    (reboot_datagram seqR).length = 16 ∧
    (reboot_datagram seqR).drop 12 = [1, 0, 0, 0] := by
  refine ⟨rfl, ?_, ?_⟩ <;>
    simp [reboot_datagram, build_reboot, MsgHeader.new, MsgHeader.to_bytes,
      u16_be_bytes, MacAddress.default, RebootType.to_u8]

/-- C4: when the receive loop completes without a parse abort, discover
fails with NotFound exactly when no event of the window was accepted into
the result map, and as soon as one reply was accepted it returns the
map's values. -/
theorem discover_not_found_iff (events : List (Option (List Nat)))
    (m : List (IpAddr × ControllerInfo)) (h : discover_loop [] events = .ok m) :
    (discover_run events = .error .NotFound ↔ ∀ e ∈ events, accepted e = false) ∧
    ((∃ e ∈ events, accepted e = true) → discover_run events = .ok (m.map Prod.snd)) := by
  have hrun := discover_run_of_loop events m h
  have hempty : m = [] ↔ ∀ e ∈ events, accepted e = false := by
    rw [discover_loop_empty_iff events [] m h]
    simp
  constructor
  · rw [hrun]
    constructor
    · intro hnf
      apply hempty.mp
      by_contra hne
      rw [discover_finish, if_neg (by simpa using hne)] at hnf
      cases hnf
    · intro hall
      have hm : m = [] := hempty.mpr hall
      subst hm
      rfl
  · rintro ⟨e, he, hacc⟩
    have hne : m ≠ [] := by
      intro h0
      have hfe := hempty.mp h0 e he
      rw [hacc] at hfe
      cases hfe
    rw [hrun, discover_finish, if_neg (by simpa using hne)]

/-- C4 witness: a window with one valid reply returns its map values, and
NotFound is equivalent to the (false) statement that no event was
accepted. -/
theorem discover_not_found_iff_witness :
    discover_loop [] [some sample_reply] = .ok [(IpAddr.V4 0 0 0 0, sample_info)] ∧
    ((discover_run [some sample_reply] = .error .NotFound ↔
        ∀ e ∈ [some sample_reply], accepted e = false) ∧
      ((∃ e ∈ [some sample_reply], accepted e = true) →
        discover_run [some sample_reply] =
          .ok ([(IpAddr.V4 0 0 0 0, sample_info)].map Prod.snd))) :=
  ⟨by decide, discover_not_found_iff [some sample_reply] _ (by decide)⟩

/-- C5: when the receive loop completes, the result-map entry for any
IPv4 address is exactly the last successfully decoded reply carrying that
address (each successful decode inserts or overwrites the entry for its
address), and the map keys are pairwise distinct, so there is a single
entry per address and no merging. -/
theorem discover_last_decode_wins (events : List (Option (List Nat)))
    (m : List (IpAddr × ControllerInfo)) (a : IpAddr)
    (h : discover_loop [] events = .ok m) :
    lookup_addr m a = last_decode_for a events ∧ (m.map Prod.fst).Nodup := by
  constructor
  · rw [discover_loop_lookup events [] m a h]
    rfl
  · exact discover_loop_nodup events [] m (by simp) h

/-- C5 witness: two valid replies with the same IPv4 address and distinct
uptimes collapse to one entry holding the later decode. -/
theorem discover_last_decode_wins_witness :
    discover_loop [] [some sample_reply, some sample_replyB] =
      .ok [(IpAddr.V4 0 0 0 0, sample_infoB)] ∧
    (lookup_addr [(IpAddr.V4 0 0 0 0, sample_infoB)] (IpAddr.V4 0 0 0 0) =
        last_decode_for (IpAddr.V4 0 0 0 0) [some sample_reply, some sample_replyB] ∧
      ([(IpAddr.V4 0 0 0 0, sample_infoB)].map Prod.fst).Nodup) :=
  ⟨by decide,
    discover_last_decode_wins [some sample_reply, some sample_replyB]
      [(IpAddr.V4 0 0 0 0, sample_infoB)] (IpAddr.V4 0 0 0 0) (by decide)⟩

end Prologix
